import Mathlib

/-!
Scale styles of the `gg` drawing context (`scale.go`)

A shallow embedding of `scale.go`: the `ScaleStyle` enumeration, the lookup
`ScaleStyle.transformer` from a style to an interpolator of
`golang.org/x/image/draw`, and the five setters of `Context`.

* `ScaleStyle` is Go's `int`; it is embedded as `Int`, which contains every
  machine integer, and no arithmetic is ever done on it.
* The package `golang.org/x/image/draw` is not part of the repository. Its
  four package-level interpolators are taken as a parameter: a record `draw`
  over an arbitrary type of interpolators.
* `Context` is declared in another file of the package. Only its field
  `scaleStyle` is touched by `scale.go`; all remaining fields are carried as
  one component `rest` of an arbitrary type.
* The setters have a pointer receiver and no result. They are embedded by
  state passing: the receiver is a live context and the function returns the
  context after the call.
-/

namespace gg

/-! ## Data model -/

/-- The Go type `ScaleStyle` (`type ScaleStyle int`). -/
abbrev ScaleStyle : Type := Int

/-- `BiLinear ScaleStyle = iota`: the first constant of the block, value 0. -/
def BiLinear : ScaleStyle := 0

/-- `ApproxBiLinear`: second constant of the `iota` block, value 1. -/
def ApproxBiLinear : ScaleStyle := 1

/-- `NearestNeighbor`: third constant of the `iota` block, value 2. -/
def NearestNeighbor : ScaleStyle := 2

/-- `CatmullRom`: fourth constant of the `iota` block, value 3. -/
def CatmullRom : ScaleStyle := 3

/-- The four package-level interpolators of `golang.org/x/image/draw` that
`scale.go` refers to, over an arbitrary type `Interpolator` standing for
`draw.Interpolator`. A value `d : draw Interpolator` plays the role of the
imported package, so that `d.BiLinear` reads as `draw.BiLinear`. -/
structure draw (Interpolator : Type) where
  BiLinear : Interpolator
  ApproxBiLinear : Interpolator
  NearestNeighbor : Interpolator
  CatmullRom : Interpolator

/-- The Go struct `Context`, as far as `scale.go` sees it: the field
`scaleStyle`, and every other field of the struct gathered in `rest`. -/
structure Context (Rest : Type) where
  scaleStyle : ScaleStyle
  rest : Rest

/-! ## Operations -/

/-- The method `func (s ScaleStyle) transformer() draw.Interpolator`: a
`switch` over the four constants, tried in order, and `draw.BiLinear` after
the `switch` when no case matched. -/
def ScaleStyle.transformer {Interpolator : Type} (d : draw Interpolator)
    (s : ScaleStyle) : Interpolator :=
  if s = BiLinear then d.BiLinear
  else if s = ApproxBiLinear then d.ApproxBiLinear
  else if s = NearestNeighbor then d.NearestNeighbor
  else if s = CatmullRom then d.CatmullRom
  else d.BiLinear

/-- The method `func (dc *Context) SetScaleStyle(s ScaleStyle)`, whose body is
the single assignment `dc.scaleStyle = s`. -/
def Context.SetScaleStyle {Rest : Type} (dc : Context Rest) (s : ScaleStyle) :
    Context Rest :=
  { dc with scaleStyle := s }

/-- The method `SetScaleBiLinear`: `dc.SetScaleStyle(BiLinear)`. -/
def Context.SetScaleBiLinear {Rest : Type} (dc : Context Rest) : Context Rest :=
  dc.SetScaleStyle BiLinear

/-- The method `SetScaleApproxBiLinear`: `dc.SetScaleStyle(ApproxBiLinear)`. -/
def Context.SetScaleApproxBiLinear {Rest : Type} (dc : Context Rest) :
    Context Rest :=
  dc.SetScaleStyle ApproxBiLinear

/-- The method `SetScaleNearestNeighbor`: `dc.SetScaleStyle(NearestNeighbor)`. -/
def Context.SetScaleNearestNeighbor {Rest : Type} (dc : Context Rest) :
    Context Rest :=
  dc.SetScaleStyle NearestNeighbor

/-- The method `SetScaleCatmullRom`: `dc.SetScaleStyle(CatmullRom)`. -/
def Context.SetScaleCatmullRom {Rest : Type} (dc : Context Rest) : Context Rest :=
  dc.SetScaleStyle CatmullRom

/-! ## A concrete instance for evaluation -/

/-- Four distinguishable interpolator handles, one per name. -/
inductive Handle where
  | biLinear
  | approxBiLinear
  | nearestNeighbor
  | catmullRom
  deriving DecidableEq, Repr

/-- An instance of the imported package in which the four interpolators are
four different handles. -/
def draw.handles : draw Handle :=
  { BiLinear := Handle.biLinear
    ApproxBiLinear := Handle.approxBiLinear
    NearestNeighbor := Handle.nearestNeighbor
    CatmullRom := Handle.catmullRom }

/-- A context whose other fields are summarised by the number 7 and whose
style currently is `CatmullRom`. -/
def Context.sample : Context Nat :=
  { scaleStyle := CatmullRom, rest := 7 }

/-! ## Sequences of setter calls -/

/-- One call of a setter of `scale.go`: the general setter together with its
argument, or one of the four convenience setters. -/
inductive Call where
  | SetScaleStyle (s : ScaleStyle)
  | SetScaleBiLinear
  | SetScaleApproxBiLinear
  | SetScaleNearestNeighbor
  | SetScaleCatmullRom
  deriving DecidableEq, Repr

/-- The context after one setter call. -/
def Context.call {Rest : Type} (dc : Context Rest) : Call → Context Rest
  | Call.SetScaleStyle s => dc.SetScaleStyle s
  | Call.SetScaleBiLinear => dc.SetScaleBiLinear
  | Call.SetScaleApproxBiLinear => dc.SetScaleApproxBiLinear
  | Call.SetScaleNearestNeighbor => dc.SetScaleNearestNeighbor
  | Call.SetScaleCatmullRom => dc.SetScaleCatmullRom

/-- The context after a finite sequence of setter calls, made from left to
right. -/
def Context.calls {Rest : Type} (dc : Context Rest) (cs : List Call) : Context Rest :=
  cs.foldl Context.call dc

/-- A style is named when it is one of the four constants of the `const`
block. -/
def ScaleStyle.named (s : ScaleStyle) : Prop :=
  s = BiLinear ∨ s = ApproxBiLinear ∨ s = NearestNeighbor ∨ s = CatmullRom

instance ScaleStyle.decidableNamed : DecidablePred ScaleStyle.named :=
  fun s => by
    unfold ScaleStyle.named
    infer_instance

/-- A call keeps to the named styles when it is a convenience setter, or the
general setter with a named constant as argument. -/
def Call.named : Call → Prop
  | Call.SetScaleStyle s => ScaleStyle.named s
  | _ => True

instance Call.decidableNamed : DecidablePred Call.named :=
  fun c => by
    cases c <;> unfold Call.named <;> infer_instance

/-! ## Shared lemmas -/

/-- Being outside the range 0..3 is the same as being none of the four named
constants. -/
theorem ScaleStyle.outside_iff (s : ScaleStyle) :
    (s < 0 ∨ s > 3) ↔
      (s ≠ BiLinear ∧ s ≠ ApproxBiLinear ∧ s ≠ NearestNeighbor ∧ s ≠ CatmullRom) := by
  have key : ∀ i : Int, (i < 0 ∨ i > 3) ↔ (i ≠ 0 ∧ i ≠ 1 ∧ i ≠ 2 ∧ i ≠ 3) := by
    intro i
    omega
  exact key s

/-- On a value that is none of the four constants every case of the `switch`
fails and the statement after it returns `draw.BiLinear`. -/
theorem ScaleStyle.transformer_of_unnamed {Interpolator : Type}
    (d : draw Interpolator) (s : ScaleStyle)
    (h : s ≠ BiLinear ∧ s ≠ ApproxBiLinear ∧ s ≠ NearestNeighbor ∧ s ≠ CatmullRom) :
    ScaleStyle.transformer d s = d.BiLinear := by
  obtain ⟨h0, h1, h2, h3⟩ := h
  simp [ScaleStyle.transformer, h0, h1, h2, h3]

/-- On each of the four constants the matching case of the `switch` is taken. -/
theorem ScaleStyle.transformer_of_named {Interpolator : Type} (d : draw Interpolator) :
    ScaleStyle.transformer d BiLinear = d.BiLinear ∧
    ScaleStyle.transformer d ApproxBiLinear = d.ApproxBiLinear ∧
    ScaleStyle.transformer d NearestNeighbor = d.NearestNeighbor ∧
    ScaleStyle.transformer d CatmullRom = d.CatmullRom := by
  refine ⟨?_, ?_, ?_, ?_⟩ <;>
    simp [ScaleStyle.transformer, BiLinear, ApproxBiLinear, NearestNeighbor, CatmullRom]

/-! ## The resolution function -/

/-- C1: on each of the four named constants `transformer` returns the
interpolator of the same name. -/
theorem transformer_named {Interpolator : Type} (d : draw Interpolator) :
    ScaleStyle.transformer d BiLinear = d.BiLinear ∧
    ScaleStyle.transformer d ApproxBiLinear = d.ApproxBiLinear ∧
    ScaleStyle.transformer d NearestNeighbor = d.NearestNeighbor ∧
    ScaleStyle.transformer d CatmullRom = d.CatmullRom :=
  ScaleStyle.transformer_of_named d

/-- C2: a style below 0 or above 3 is none of the four named constants, and
`transformer` returns on it what it returns on `BiLinear`, namely
`draw.BiLinear`. -/
theorem transformer_out_of_range {Interpolator : Type} (d : draw Interpolator)
    (s : ScaleStyle) (h : s < 0 ∨ s > 3) :
    (s ≠ BiLinear ∧ s ≠ ApproxBiLinear ∧ s ≠ NearestNeighbor ∧ s ≠ CatmullRom) ∧
    ScaleStyle.transformer d s = ScaleStyle.transformer d BiLinear ∧
    ScaleStyle.transformer d s = d.BiLinear := by
  have hn := (ScaleStyle.outside_iff s).mp h
  have hs := ScaleStyle.transformer_of_unnamed d s hn
  refine ⟨hn, ?_, hs⟩
  rw [hs]
  simp [ScaleStyle.transformer]

/-- The out-of-range rule at the styles 99 and -1, on the instance with four
different handles. -/
theorem transformer_out_of_range_witness :
    (((99 : ScaleStyle) < 0 ∨ (99 : ScaleStyle) > 3) ∧
      ScaleStyle.transformer draw.handles 99 = Handle.biLinear) ∧
    (((-1 : ScaleStyle) < 0 ∨ (-1 : ScaleStyle) > 3) ∧
      ScaleStyle.transformer draw.handles (-1) = Handle.biLinear) :=
  ⟨⟨by decide, (transformer_out_of_range draw.handles 99 (by decide)).2.2⟩,
   ⟨by decide, (transformer_out_of_range draw.handles (-1) (by decide)).2.2⟩⟩

/-! ## The setters -/

/-- C3: after `SetScaleStyle(s)` the field `scaleStyle` holds exactly `s`, for
every integer `s`; the value is stored as given. -/
theorem SetScaleStyle_stores {Rest : Type} (dc : Context Rest) (s : ScaleStyle) :
    (dc.SetScaleStyle s).scaleStyle = s := by
  rfl

/-- C4: each convenience setter leaves the context exactly as the general
setter does when called with the constant of the same name. -/
theorem convenience_setters_eq_SetScaleStyle {Rest : Type} (dc : Context Rest) :
    dc.SetScaleBiLinear = dc.SetScaleStyle BiLinear ∧
    dc.SetScaleApproxBiLinear = dc.SetScaleStyle ApproxBiLinear ∧
    dc.SetScaleNearestNeighbor = dc.SetScaleStyle NearestNeighbor ∧
    dc.SetScaleCatmullRom = dc.SetScaleStyle CatmullRom :=
  ⟨rfl, rfl, rfl, rfl⟩

/-- C5: last write wins. `SetScaleStyle(a)` followed by `SetScaleStyle(b)`
gives the context that `SetScaleStyle(b)` alone gives, and the stored style
then resolves to `transformer(b)`. After `SetScaleCatmullRom()` the stored
style resolves to `draw.CatmullRom`, and after a following
`SetScaleNearestNeighbor()` to `draw.NearestNeighbor`. -/
theorem SetScaleStyle_last_write_wins {Rest Interpolator : Type}
    (d : draw Interpolator) (dc : Context Rest) (a b : ScaleStyle) :
    (dc.SetScaleStyle a).SetScaleStyle b = dc.SetScaleStyle b ∧
    ScaleStyle.transformer d ((dc.SetScaleStyle a).SetScaleStyle b).scaleStyle =
      ScaleStyle.transformer d b ∧
    ScaleStyle.transformer d dc.SetScaleCatmullRom.scaleStyle = d.CatmullRom ∧
    ScaleStyle.transformer d dc.SetScaleCatmullRom.SetScaleNearestNeighbor.scaleStyle =
      d.NearestNeighbor := by
  refine ⟨rfl, rfl, ?_, ?_⟩
  · exact (ScaleStyle.transformer_of_named d).2.2.2
  · exact (ScaleStyle.transformer_of_named d).2.2.1

/-- C6: idempotence. Calling `SetScaleStyle(s)` twice in a row gives the same
context, hence the same resolved interpolator, as calling it once; likewise
for each of the four convenience setters. -/
theorem setters_idempotent {Rest Interpolator : Type}
    (d : draw Interpolator) (dc : Context Rest) (s : ScaleStyle) :
    (dc.SetScaleStyle s).SetScaleStyle s = dc.SetScaleStyle s ∧
    ScaleStyle.transformer d ((dc.SetScaleStyle s).SetScaleStyle s).scaleStyle =
      ScaleStyle.transformer d (dc.SetScaleStyle s).scaleStyle ∧
    dc.SetScaleBiLinear.SetScaleBiLinear = dc.SetScaleBiLinear ∧
    dc.SetScaleApproxBiLinear.SetScaleApproxBiLinear = dc.SetScaleApproxBiLinear ∧
    dc.SetScaleNearestNeighbor.SetScaleNearestNeighbor = dc.SetScaleNearestNeighbor ∧
    dc.SetScaleCatmullRom.SetScaleCatmullRom = dc.SetScaleCatmullRom :=
  ⟨rfl, rfl, rfl, rfl, rfl, rfl⟩

/-- C7: `BiLinear` is the zero value of `ScaleStyle`, and a context whose field
`scaleStyle` holds the zero value, as in a context on which no setter was ever
called, resolves to `draw.BiLinear`. -/
theorem zero_value_resolves_BiLinear {Rest Interpolator : Type}
    (d : draw Interpolator) (dc : Context Rest) (h : dc.scaleStyle = 0) :
    BiLinear = (0 : ScaleStyle) ∧
    dc.scaleStyle = BiLinear ∧
    ScaleStyle.transformer d dc.scaleStyle = d.BiLinear := by
  refine ⟨rfl, h, ?_⟩
  rw [h]
  exact (ScaleStyle.transformer_of_named d).1

/-- The default rule on a context whose style field holds 0 and whose other
fields are summarised by 7. -/
theorem zero_value_resolves_BiLinear_witness :
    (⟨0, 7⟩ : Context Nat).scaleStyle = 0 ∧
    ScaleStyle.transformer draw.handles (⟨0, 7⟩ : Context Nat).scaleStyle =
      Handle.biLinear :=
  ⟨rfl, (zero_value_resolves_BiLinear draw.handles (⟨0, 7⟩ : Context Nat) rfl).2.2⟩

/-- C8: frame. `SetScaleStyle(s)` and the four convenience setters leave every
field other than `scaleStyle` as it was: the context after the call is the
context before it with `scaleStyle` replaced. The setters have no result of
their own; the value of the embedded function is the context after the call. -/
theorem setters_frame {Rest : Type} (dc : Context Rest) (s : ScaleStyle) :
    (dc.SetScaleStyle s).rest = dc.rest ∧
    dc.SetScaleBiLinear.rest = dc.rest ∧
    dc.SetScaleApproxBiLinear.rest = dc.rest ∧
    dc.SetScaleNearestNeighbor.rest = dc.rest ∧
    dc.SetScaleCatmullRom.rest = dc.rest ∧
    dc.SetScaleStyle s = ⟨s, dc.rest⟩ ∧
    dc.SetScaleBiLinear = ⟨BiLinear, dc.rest⟩ ∧
    dc.SetScaleApproxBiLinear = ⟨ApproxBiLinear, dc.rest⟩ ∧
    dc.SetScaleNearestNeighbor = ⟨NearestNeighbor, dc.rest⟩ ∧
    dc.SetScaleCatmullRom = ⟨CatmullRom, dc.rest⟩ :=
  ⟨rfl, rfl, rfl, rfl, rfl, rfl, rfl, rfl, rfl, rfl⟩

/-- C9: totality. For every integer `s`, `transformer` yields a result, and the
result is one of `draw.BiLinear`, `draw.ApproxBiLinear`,
`draw.NearestNeighbor`, `draw.CatmullRom`; and `SetScaleStyle(s)` yields a
context for every `s`. -/
theorem transformer_total {Rest Interpolator : Type}
    (d : draw Interpolator) (dc : Context Rest) (s : ScaleStyle) :
    (∃ r, ScaleStyle.transformer d s = r ∧
      (r = d.BiLinear ∨ r = d.ApproxBiLinear ∨ r = d.NearestNeighbor ∨
        r = d.CatmullRom)) ∧
    (∃ dc1 : Context Rest, dc.SetScaleStyle s = dc1 ∧ dc1.scaleStyle = s) := by
  refine ⟨⟨_, rfl, ?_⟩, ⟨_, rfl, rfl⟩⟩
  unfold ScaleStyle.transformer
  split_ifs <;> simp

/-- C10: silent fallback through the setter. When `s` is none of the four
named constants, after `SetScaleStyle(s)` the stored style resolves to
`draw.BiLinear`, while the field itself holds the raw `s`, which is not
`BiLinear`. -/
theorem SetScaleStyle_silent_fallback {Rest Interpolator : Type}
    (d : draw Interpolator) (dc : Context Rest) (s : ScaleStyle)
    (h : s ≠ BiLinear ∧ s ≠ ApproxBiLinear ∧ s ≠ NearestNeighbor ∧ s ≠ CatmullRom) :
    ScaleStyle.transformer d (dc.SetScaleStyle s).scaleStyle = d.BiLinear ∧
    (dc.SetScaleStyle s).scaleStyle = s ∧
    (dc.SetScaleStyle s).scaleStyle ≠ BiLinear :=
  ⟨ScaleStyle.transformer_of_unnamed d s h, rfl, h.1⟩

/-- The fallback at the style 99 stored into the sample context: resolution
gives the bi-linear handle while the field holds 99. -/
theorem SetScaleStyle_silent_fallback_witness :
    ((99 : ScaleStyle) ≠ BiLinear ∧ (99 : ScaleStyle) ≠ ApproxBiLinear ∧
      (99 : ScaleStyle) ≠ NearestNeighbor ∧ (99 : ScaleStyle) ≠ CatmullRom) ∧
    ScaleStyle.transformer draw.handles (Context.sample.SetScaleStyle 99).scaleStyle =
      Handle.biLinear ∧
    (Context.sample.SetScaleStyle 99).scaleStyle = 99 ∧
    (Context.sample.SetScaleStyle 99).scaleStyle ≠ BiLinear :=
  ⟨by decide,
   SetScaleStyle_silent_fallback draw.handles Context.sample 99 (by decide)⟩

/-! ## Sequences of calls -/

/-- After any sequence of setter calls the stored style is the one the context
started with, or a named constant, or the argument of a `SetScaleStyle` call
of the sequence. -/
theorem Context.calls_scaleStyle {Rest : Type} (cs : List Call) (dc : Context Rest) :
    (dc.calls cs).scaleStyle = dc.scaleStyle ∨
    ScaleStyle.named (dc.calls cs).scaleStyle ∨
    Call.SetScaleStyle (dc.calls cs).scaleStyle ∈ cs := by
  induction cs generalizing dc with
  | nil => exact Or.inl rfl
  | cons c cs ih =>
    have step : dc.calls (c :: cs) = (dc.call c).calls cs := rfl
    rw [step]
    rcases ih (dc.call c) with h | h | h
    · right
      rw [h]
      cases c with
      | SetScaleStyle s => exact Or.inr (List.mem_cons_self _ _)
      | SetScaleBiLinear => exact Or.inl (Or.inl rfl)
      | SetScaleApproxBiLinear => exact Or.inl (Or.inr (Or.inl rfl))
      | SetScaleNearestNeighbor => exact Or.inl (Or.inr (Or.inr (Or.inl rfl)))
      | SetScaleCatmullRom => exact Or.inl (Or.inr (Or.inr (Or.inr rfl)))
    · exact Or.inr (Or.inl h)
    · exact Or.inr (Or.inr (List.mem_cons_of_mem _ h))

/-- A named style occurs exactly once in the list of the four constants. -/
theorem ScaleStyle.count_of_named (s : ScaleStyle) (h : ScaleStyle.named s) :
    List.count s [BiLinear, ApproxBiLinear, NearestNeighbor, CatmullRom] = 1 := by
  rcases h with h | h | h | h <;> subst h <;> decide

/-- C11: state invariant. The zero value is a named style. From a context
whose `scaleStyle` is a named constant, a finite sequence of calls of the four
convenience setters and of `SetScaleStyle` with a named constant leaves
`scaleStyle` equal to exactly one of the four named constants. After an
arbitrary sequence of setter calls the field holds an unnamed value only if
the sequence contains a call of `SetScaleStyle` with that value, which is
below 0 or above 3, as its argument. -/
theorem scaleStyle_named_invariant {Rest : Type} (dc : Context Rest) (cs : List Call)
    (h0 : ScaleStyle.named dc.scaleStyle) :
    ScaleStyle.named (0 : ScaleStyle) ∧
    ((∀ c ∈ cs, Call.named c) →
      ScaleStyle.named (dc.calls cs).scaleStyle ∧
      List.count (dc.calls cs).scaleStyle
        [BiLinear, ApproxBiLinear, NearestNeighbor, CatmullRom] = 1) ∧
    (¬ ScaleStyle.named (dc.calls cs).scaleStyle →
      Call.SetScaleStyle (dc.calls cs).scaleStyle ∈ cs ∧
      ((dc.calls cs).scaleStyle < 0 ∨ (dc.calls cs).scaleStyle > 3)) := by
  have key : ¬ ScaleStyle.named (dc.calls cs).scaleStyle →
      Call.SetScaleStyle (dc.calls cs).scaleStyle ∈ cs := by
    intro hn
    rcases Context.calls_scaleStyle cs dc with h | h | h
    · rw [h] at hn
      exact absurd h0 hn
    · exact absurd h hn
    · exact h
  refine ⟨Or.inl rfl, ?_, ?_⟩
  · intro hcs
    have hnamed : ScaleStyle.named (dc.calls cs).scaleStyle := by
      by_contra hn
      exact hn (hcs _ (key hn))
    exact ⟨hnamed, ScaleStyle.count_of_named _ hnamed⟩
  · intro hn
    refine ⟨key hn, (ScaleStyle.outside_iff _).mpr ?_⟩
    unfold ScaleStyle.named at hn
    push_neg at hn
    exact hn

/-- The invariant on the zero-value context: after `SetScaleCatmullRom()`,
`SetScaleStyle(ApproxBiLinear)` and `SetScaleNearestNeighbor()` the style is
named; after `SetScaleCatmullRom()` and `SetScaleStyle(99)` it is not, and the
call with argument 99 is in the sequence. -/
theorem scaleStyle_named_invariant_witness :
    ScaleStyle.named (⟨0, 7⟩ : Context Nat).scaleStyle ∧
    (∀ c ∈ [Call.SetScaleCatmullRom, Call.SetScaleStyle ApproxBiLinear,
        Call.SetScaleNearestNeighbor], Call.named c) ∧
    ScaleStyle.named ((⟨0, 7⟩ : Context Nat).calls
      [Call.SetScaleCatmullRom, Call.SetScaleStyle ApproxBiLinear,
        Call.SetScaleNearestNeighbor]).scaleStyle ∧
    ¬ ScaleStyle.named ((⟨0, 7⟩ : Context Nat).calls
      [Call.SetScaleCatmullRom, Call.SetScaleStyle 99]).scaleStyle ∧
    Call.SetScaleStyle ((⟨0, 7⟩ : Context Nat).calls
      [Call.SetScaleCatmullRom, Call.SetScaleStyle 99]).scaleStyle ∈
      [Call.SetScaleCatmullRom, Call.SetScaleStyle 99] :=
  ⟨by decide, by decide,
   ((scaleStyle_named_invariant (⟨0, 7⟩ : Context Nat)
      [Call.SetScaleCatmullRom, Call.SetScaleStyle ApproxBiLinear,
        Call.SetScaleNearestNeighbor] (by decide)).2.1 (by decide)).1,
   by decide,
   ((scaleStyle_named_invariant (⟨0, 7⟩ : Context Nat)
      [Call.SetScaleCatmullRom, Call.SetScaleStyle 99] (by decide)).2.2 (by decide)).1⟩

/-! ## Injectivity -/

/-- C12: when the four interpolators of the imported package are pairwise
distinct, the constants are the distinct integers 0, 1, 2, 3, `transformer`
sends different named constants to different interpolators, it is not
injective on all of `ScaleStyle`, and `transformer(s)` is `draw.BiLinear`
exactly when `s` is none of `ApproxBiLinear`, `NearestNeighbor`,
`CatmullRom`. -/
theorem transformer_injective_on_named {Interpolator : Type} (d : draw Interpolator)
    (hd : d.BiLinear ≠ d.ApproxBiLinear ∧ d.BiLinear ≠ d.NearestNeighbor ∧
      d.BiLinear ≠ d.CatmullRom ∧ d.ApproxBiLinear ≠ d.NearestNeighbor ∧
      d.ApproxBiLinear ≠ d.CatmullRom ∧ d.NearestNeighbor ≠ d.CatmullRom) :
    (BiLinear = 0 ∧ ApproxBiLinear = 1 ∧ NearestNeighbor = 2 ∧ CatmullRom = 3) ∧
    List.Nodup [BiLinear, ApproxBiLinear, NearestNeighbor, CatmullRom] ∧
    (∀ a b : ScaleStyle, ScaleStyle.named a → ScaleStyle.named b →
      ScaleStyle.transformer d a = ScaleStyle.transformer d b → a = b) ∧
    ¬ Function.Injective (ScaleStyle.transformer d) ∧
    (∀ s : ScaleStyle, ScaleStyle.transformer d s = d.BiLinear ↔
      (s ≠ ApproxBiLinear ∧ s ≠ NearestNeighbor ∧ s ≠ CatmullRom)) := by
  obtain ⟨h01, h02, h03, h12, h13, h23⟩ := hd
  obtain ⟨t0, t1, t2, t3⟩ := ScaleStyle.transformer_of_named d
  refine ⟨⟨rfl, rfl, rfl, rfl⟩, by decide, ?_, ?_, ?_⟩
  · intro a b ha hb hab
    rcases ha with rfl | rfl | rfl | rfl <;> rcases hb with rfl | rfl | rfl | rfl <;>
      first
        | rfl
        | (rw [t0, t1] at hab; exact absurd hab h01)
        | (rw [t0, t2] at hab; exact absurd hab h02)
        | (rw [t0, t3] at hab; exact absurd hab h03)
        | (rw [t1, t2] at hab; exact absurd hab h12)
        | (rw [t1, t3] at hab; exact absurd hab h13)
        | (rw [t2, t3] at hab; exact absurd hab h23)
        | (rw [t1, t0] at hab; exact absurd hab.symm h01)
        | (rw [t2, t0] at hab; exact absurd hab.symm h02)
        | (rw [t3, t0] at hab; exact absurd hab.symm h03)
        | (rw [t2, t1] at hab; exact absurd hab.symm h12)
        | (rw [t3, t1] at hab; exact absurd hab.symm h13)
        | (rw [t3, t2] at hab; exact absurd hab.symm h23)
  · intro hinj
    have h4 : ScaleStyle.transformer d 4 = ScaleStyle.transformer d BiLinear := by
      rw [t0]
      exact ScaleStyle.transformer_of_unnamed d 4 (by decide)
    exact absurd (hinj h4) (by decide)
  · intro s
    constructor
    · intro hs
      refine ⟨?_, ?_, ?_⟩
      · rintro rfl
        rw [t1] at hs
        exact h01 hs.symm
      · rintro rfl
        rw [t2] at hs
        exact h02 hs.symm
      · rintro rfl
        rw [t3] at hs
        exact h03 hs.symm
    · rintro ⟨h1, h2, h3⟩
      by_cases h0 : s = BiLinear
      · rw [h0, t0]
      · exact ScaleStyle.transformer_of_unnamed d s ⟨h0, h1, h2, h3⟩

/-- The four handles are pairwise distinct; on them `transformer` separates
`ApproxBiLinear` from `CatmullRom`, is not injective, and sends 4 to the
bi-linear handle. -/
theorem transformer_injective_on_named_witness :
    (draw.handles.BiLinear ≠ draw.handles.ApproxBiLinear ∧
      draw.handles.BiLinear ≠ draw.handles.NearestNeighbor ∧
      draw.handles.BiLinear ≠ draw.handles.CatmullRom ∧
      draw.handles.ApproxBiLinear ≠ draw.handles.NearestNeighbor ∧
      draw.handles.ApproxBiLinear ≠ draw.handles.CatmullRom ∧
      draw.handles.NearestNeighbor ≠ draw.handles.CatmullRom) ∧
    ¬ Function.Injective (ScaleStyle.transformer draw.handles) ∧
    (ScaleStyle.transformer draw.handles 4 = draw.handles.BiLinear ↔
      ((4 : ScaleStyle) ≠ ApproxBiLinear ∧ (4 : ScaleStyle) ≠ NearestNeighbor ∧
        (4 : ScaleStyle) ≠ CatmullRom)) :=
  ⟨by decide,
   (transformer_injective_on_named draw.handles (by decide)).2.2.2.1,
   (transformer_injective_on_named draw.handles (by decide)).2.2.2.2 4⟩

end gg
